import Mathlib

/-!
Shallow embedding of the Product model and routes of the product-store
service (`src/service/models.py`, `src/service/routes.py`).

Python `decimal.Decimal` values produced by the code are plain decimal
numerals (optional sign, digits, optional fraction part); they are modelled
by `Dec` below: a sign, a coefficient and the number of fractional digits.
`str()` on such a value prints the coefficient with the decimal point
inserted `frac` digits from the right (scientific notation, which CPython
uses only for exponents outside the range these claims exercise, is not
modelled).  `Decimal(string)` parsing is modelled on the fragment the
service produces and consumes: surrounding spaces, an optional sign, and
digits with at most one point (exponent suffixes and the special values
Infinity/NaN are outside the model).
-/

namespace ProductStore

/-- Numeric value of a decimal digit character. -/
def charVal (c : Char) : Nat := c.toNat - 48

/-- Little-endian digit characters of `n` (empty for `0`); the first
argument is structural fuel, always called with `fuel = n`. -/
def natCharsAux : Nat → Nat → List Char
  | 0, _ => []
  | _ + 1, 0 => []
  | fuel + 1, n + 1 => Char.ofNat (48 + (n + 1) % 10) :: natCharsAux fuel ((n + 1) / 10)

/-- Big-endian digit characters of `n` (empty for `0`). -/
def natChars (n : Nat) : List Char := (natCharsAux n n).reverse

/-- Digit characters of a `Decimal` coefficient: CPython prints coefficient
`0` as the single digit `0`. -/
def mantChars (n : Nat) : List Char := if n = 0 then ['0'] else natChars n

/-- Value of a little-endian digit-character list. -/
def valLE : List Char → Nat
  | [] => 0
  | c :: cs => charVal c + 10 * valLE cs

/-- Value of a big-endian digit-character list. -/
def charsVal (cs : List Char) : Nat := valLE cs.reverse

/-- Exact decimal number as held by `decimal.Decimal` for the plain
numerals this service handles: sign, coefficient, and number of digits
after the point (the negated exponent). -/
structure Dec where
  neg : Bool
  mant : Nat
  frac : Nat
deriving DecidableEq, Repr

/-- The coefficient digits padded on the left with zeros so that at least
one digit stands before the decimal point. -/
def Dec.padded (d : Dec) : List Char :=
  List.replicate (d.frac + 1 - (mantChars d.mant).length) '0' ++ mantChars d.mant

/-- Unsigned body of `str(decimal_value)`: the padded coefficient with the
decimal point inserted `frac` digits from the right (no point when
`frac = 0`). -/
def decBody (d : Dec) : List Char :=
  if d.frac = 0 then d.padded
  else d.padded.take (d.padded.length - d.frac) ++
    '.' :: d.padded.drop (d.padded.length - d.frac)

/-- Characters of `str(decimal_value)` (models.py line 79 serializes the
price as `str(self.price)`). -/
def decToChars (d : Dec) : List Char :=
  if d.neg then '-' :: decBody d else decBody d

/-- Python `str()` of a decimal value. -/
def decToString (d : Dec) : String := ⟨decToChars d⟩

/-- Strip characters satisfying `p` from both ends, as Python
`str.strip(chars)` does. -/
def stripChars (p : Char → Bool) (cs : List Char) : List Char :=
  ((cs.dropWhile p).reverse.dropWhile p).reverse

/-- Unsigned part of `Decimal(string)` parsing: digits with at most one
point, at least one digit in total. -/
def decParseUnsigned (cs : List Char) (neg : Bool) : Option Dec :=
  let ip := cs.takeWhile Char.isDigit
  let rest := cs.dropWhile Char.isDigit
  if rest.isEmpty then
    if ip.isEmpty then none else some ⟨neg, charsVal ip, 0⟩
  else if rest.head? = some '.' then
    let fp := rest.tail
    if fp.all Char.isDigit && !(ip.isEmpty && fp.isEmpty) then
      some ⟨neg, charsVal (ip ++ fp), fp.length⟩
    else none
  else none

/-- Python `Decimal(string)` on the plain-numeral fragment: CPython strips
surrounding whitespace, then reads an optional sign and the digits.
`none` models the `decimal.InvalidOperation` the constructor raises on
a malformed numeral. -/
def decParseChars (cs : List Char) : Option Dec :=
  match stripChars (fun c => c == ' ') cs with
  | [] => none
  | c :: rest =>
    if c = '-' then decParseUnsigned rest true
    else if c = '+' then decParseUnsigned rest false
    else decParseUnsigned (c :: rest) false

/-- Python `Decimal(string)` on a Lean `String`. -/
def decParse (s : String) : Option Dec := decParseChars s.data

/-- Signed integer coefficient of a decimal value. -/
def Dec.signedMant (d : Dec) : Int :=
  if d.neg then -(d.mant : Int) else (d.mant : Int)

/-- Numeric equality of two decimal values (Python `==` on `Decimal`
compares numerically, ignoring trailing zeros of the representation). -/
def decEqv (a b : Dec) : Bool :=
  a.signedMant * 10 ^ b.frac == b.signedMant * 10 ^ a.frac

/-! ### The Product data model (src/service/models.py) -/

/-- The `Category(Enum)` enumeration of models.py lines 27-35. -/
inductive Category
  | UNKNOWN
  | CLOTHS
  | FOOD
  | HOUSEWARES
  | AUTOMOTIVE
  | TOOLS
deriving DecidableEq, Repr

/-- Python `member.name` of a `Category` member. -/
def Category.name : Category → String
  | .UNKNOWN => "UNKNOWN"
  | .CLOTHS => "CLOTHS"
  | .FOOD => "FOOD"
  | .HOUSEWARES => "HOUSEWARES"
  | .AUTOMOTIVE => "AUTOMOTIVE"
  | .TOOLS => "TOOLS"

/-- Case-sensitive lookup of a `Category` member by its name. -/
def Category.fromName (s : String) : Option Category :=
  if s = "UNKNOWN" then some .UNKNOWN
  else if s = "CLOTHS" then some .CLOTHS
  else if s = "FOOD" then some .FOOD
  else if s = "HOUSEWARES" then some .HOUSEWARES
  else if s = "AUTOMOTIVE" then some .AUTOMOTIVE
  else if s = "TOOLS" then some .TOOLS
  else none

/-- Untyped values held in a request/response record.  JSON numbers are
integers here (binary floating point carries no claim in this
development); `null` is Python `None`. -/
inductive Value
  | str (s : String)
  | int (n : Int)
  | bool (b : Bool)
  | null
deriving DecidableEq, Repr

/-- A Python dict as passed to `serialize`/`deserialize`: association list
with the first binding of a key authoritative (dict keys are unique). -/
abbrev Record := List (String × Value)

instance {ε α : Type} [DecidableEq ε] [DecidableEq α] : DecidableEq (Except ε α) :=
  fun a b =>
    match a, b with
    | .ok x, .ok y =>
      if h : x = y then isTrue (by rw [h])
      else isFalse (fun hh => h (Except.ok.inj hh))
    | .error x, .error y =>
      if h : x = y then isTrue (by rw [h])
      else isFalse (fun hh => h (Except.error.inj hh))
    | .ok _, .error _ => isFalse (fun hh => Except.noConfusion hh)
    | .error _, .ok _ => isFalse (fun hh => Except.noConfusion hh)

/-- Python `str.lower()` on the ASCII strings the service compares
against. -/
def pyLower (s : String) : String := ⟨s.data.map Char.toLower⟩

/-- Python `str.upper()` on the ASCII strings the service compares
against. -/
def pyUpper (s : String) : String := ⟨s.data.map Char.toUpper⟩

/-- Python exceptions that can leave the model's operations.
`dataValidation` is the service's own `DataValidationError`;
`invalidOperation` is `decimal.InvalidOperation` (raised by `Decimal()` on
an unparsable numeral, and caught by none of `deserialize`'s except
clauses); `typeErr` is `TypeError` as raised inside `Decimal()`. -/
inductive PyExc
  | dataValidation (msg : String)
  | invalidOperation
  | typeErr (msg : String)
deriving DecidableEq, Repr

/-- Is the exception the service's `DataValidationError`? -/
def PyExc.isDataValidation : PyExc → Bool
  | .dataValidation _ => true
  | _ => false

/-- Python `Decimal(x)` on an untyped value: strings are parsed (raising
`decimal.InvalidOperation` on failure), integers convert exactly, Python
`bool` is an `int` subclass so `Decimal(True) == 1`, and `None` raises
`TypeError`. -/
def pyDecimal : Value → Except PyExc Dec
  | .str s =>
    match decParse s with
    | some d => .ok d
    | none => .error .invalidOperation
  | .int n => .ok ⟨decide (n < 0), n.natAbs, 0⟩
  | .bool b => .ok ⟨false, if b then 1 else 0, 0⟩
  | .null => .error (.typeErr "conversion from NoneType to Decimal is not supported")

/-- Python repr of a value's type, as interpolated by an f-string over
`type(x)`. -/
def pyTypeRepr : Value → String
  | .str _ => "<class \x27str\x27>"
  | .int _ => "<class \x27int\x27>"
  | .bool _ => "<class \x27bool\x27>"
  | .null => "<class \x27NoneType\x27>"

/-- Python type name as it appears quoted inside `TypeError` messages. -/
def pyTypeQuote : Value → String
  | .str _ => "\x27str\x27"
  | .int _ => "\x27int\x27"
  | .bool _ => "\x27bool\x27"
  | .null => "\x27NoneType\x27"

/-- Result of `getattr(Category, s)`. -/
inductive GetattrResult
  | member (c : Category)
  | classAttr (s : String)
  | attrError
deriving DecidableEq, Repr

/-- Non-member attribute names that `getattr` finds on the `Category`
class object in CPython without raising: every `Enum` class exposes
`__members__`, and every class inherits `mro` and the usual dunder
attributes from `type`/`object`.  (A representative subset: CPython
exposes further such names; each listed one is retrievable, e.g.
`getattr(Category, "__members__")` returns the member mapping.) -/
def categoryClassAttrs : List String :=
  ["__members__", "mro", "__class__", "__name__", "__qualname__",
   "__doc__", "__module__", "__dict__", "__bases__"]

/-- Python `getattr(Category, s)` (models.py line 96): a member name yields the
member; a non-member attribute of the class object yields that attribute
(not a `Category` value!); any other name raises `AttributeError`
(`EnumMeta.__getattr__` raises `AttributeError(name)`, so `error.args[0]`
is the looked-up name; the dynamic attributes `name` and `value` also
raise `AttributeError` on class access). -/
def pyGetattrCategory (s : String) : GetattrResult :=
  match Category.fromName s with
  | some c => .member c
  | none => if s ∈ categoryClassAttrs then .classAttr s else .attrError

/-- The `category` column of a `Product`: normally a `Category` member,
but `deserialize` can store an arbitrary class attribute fetched by
`getattr` (modelled by `pyObject` with the attribute's name). -/
inductive CatField
  | member (c : Category)
  | pyObject (attr : String)
deriving DecidableEq, Repr

/-- Is the stored category an enumeration member? -/
def CatField.isMember : CatField → Bool
  | .member _ => true
  | .pyObject _ => false

/-- In-memory `Product` row (models.py lines 38-48).  `name` and
`description` are untyped (`deserialize` assigns `data["name"]` and
`data["description"]` unchecked); `price` and `available` hold only
checked values because `deserialize` writes them only after validation. -/
structure Product where
  id : Option Int
  name : Value
  description : Value
  price : Dec
  available : Bool
  category : CatField
deriving DecidableEq, Repr

/-- The method `Product.serialize` (models.py lines 73-82): price is emitted as
`str(self.price)` and category as `self.category.name`.  When the stored
category is not a member, `.name` raises `AttributeError`, modelled as
`none`. -/
def Product.serialize (p : Product) : Option Record :=
  match p.category with
  | .member c =>
    some [("id", match p.id with | none => Value.null | some n => Value.int n),
      ("name", p.name),
      ("description", p.description),
      ("price", Value.str (decToString p.price)),
      ("available", Value.bool p.available),
      ("category", Value.str c.name)]
  | .pyObject _ => none

/-- Map an exception raised inside `deserialize`'s try block through its
except clauses (models.py lines 97-104): `TypeError` is converted to
`DataValidationError`; `decimal.InvalidOperation` matches no clause and
escapes unchanged. -/
def catchDeserialize : PyExc → PyExc
  | .typeErr m => .dataValidation ("Invalid product: body of request contained bad or no data " ++ m)
  | e => e

/-- The method `Product.deserialize` (models.py lines 84-105).  Returns the mutated
entity together with the escaping exception, if any: assignments made
before a failure stick (Python mutates `self` in place).  Missing keys
raise `KeyError(key)`, caught into `DataValidationError("Invalid product:
missing " + key)`; a non-boolean `available` raises `DataValidationError`
directly; an unknown category name raises `AttributeError(name)`, caught
into `DataValidationError("Invalid attribute: " + name)`; a non-string
category raises `TypeError` inside `getattr`. -/
def Product.deserialize (p : Product) (data : Record) : Product × Option PyExc :=
  match List.lookup "name" data with
  | none => (p, some (.dataValidation "Invalid product: missing name"))
  | some nv =>
    let p1 := { p with name := nv }
    match List.lookup "description" data with
    | none => (p1, some (.dataValidation "Invalid product: missing description"))
    | some dv =>
      let p2 := { p1 with description := dv }
      match List.lookup "price" data with
      | none => (p2, some (.dataValidation "Invalid product: missing price"))
      | some pv =>
        match pyDecimal pv with
        | .error e => (p2, some (catchDeserialize e))
        | .ok d =>
          let p3 := { p2 with price := d }
          match List.lookup "available" data with
          | none => (p3, some (.dataValidation "Invalid product: missing available"))
          | some av =>
            match av with
            | .bool b =>
              let p4 := { p3 with available := b }
              match List.lookup "category" data with
              | none => (p4, some (.dataValidation "Invalid product: missing category"))
              | some cv =>
                match cv with
                | .str s =>
                  match pyGetattrCategory s with
                  | .member c => ({ p4 with category := .member c }, none)
                  | .classAttr a => ({ p4 with category := .pyObject a }, none)
                  | .attrError => (p4, some (.dataValidation ("Invalid attribute: " ++ s)))
                | v =>
                  (p4, some (catchDeserialize (.typeErr
                    ("attribute name must be string, not " ++ pyTypeQuote v))))
            | v =>
              (p3, some (.dataValidation ("Invalid type for boolean [available]: " ++ pyTypeRepr v)))

/-- The method `Product.update` (models.py lines 60-65) against the stored rows: a
falsy `id` (Python `not self.id`: `None` or `0`) raises
`DataValidationError` before anything is committed; otherwise the commit
persists the entity's current field values over the row with that id. -/
def Product.update (p : Product) (rows : List Product) : Except PyExc (List Product) :=
  if p.id = none ∨ p.id = some 0 then
    .error (.dataValidation "Update called with empty ID field")
  else
    .ok (rows.map fun r => if r.id = p.id then p else r)

/-- Argument to `find_by_price`: either a `Decimal` or a text form. -/
inductive PriceArg
  | dec (d : Dec)
  | text (s : String)

/-- The classmethod `Product.find_by_price` (models.py lines 130-136): a string argument
is stripped of surrounding spaces and double quotes (`price.strip(' "')`)
and parsed with `Decimal`; the rows are then filtered by numeric equality
on the price. -/
def Product.find_by_price (price : PriceArg) (rows : List Product) :
    Except PyExc (List Product) :=
  match price with
  | .dec d => .ok (rows.filter fun r => decEqv r.price d)
  | .text s =>
    match decParseChars (stripChars (fun c => c == ' ' || c == '"') s.data) with
    | some d => .ok (rows.filter fun r => decEqv r.price d)
    | none => .error .invalidOperation

/-! ### The listing endpoint (src/service/routes.py lines 68-87) -/

/-- Python `available.lower() in ["true", "yes", "1"]` (routes.py line 81). -/
def parseAvailable (s : String) : Bool :=
  pyLower s == "true" || pyLower s == "yes" || pyLower s == "1"

/-- Missing query parameters arrive as Python `None`; `if param:` treats
`None` and `""` alike as absent. -/
def orEmpty : Option String → String
  | none => ""
  | some s => s

/-- Outcome of `list_products`: which single query is dispatched.
`catError` models the uncaught `AttributeError` that
`getattr(Category, category.upper())` raises for a non-member name
(routes.py line 78 is wrapped in no try/except and no abort, so the
exception escapes the handler and Flask turns it into an internal server
error, HTTP 500). -/
inductive ListOutcome
  | byName (n : String)
  | byCategory (c : Category)
  | byAvail (b : Bool)
  | allProducts
  | catError (s : String)
deriving DecidableEq, Repr

/-- The handler `list_products` (routes.py lines 68-87): single-parameter dispatch in
the order name, category, available; an upper-cased category name is
looked up among the members (the `Category` class has no other
all-uppercase attribute, so `getattr` after `.upper()` either finds a
member or raises `AttributeError`). -/
def list_products (name category available : Option String) : ListOutcome :=
  let n := orEmpty name
  if n ≠ "" then .byName n
  else
    let c := orEmpty category
    if c ≠ "" then
      match Category.fromName (pyUpper c) with
      | some cat => .byCategory cat
      | none => .catError (pyUpper c)
    else
      let a := orEmpty available
      if a ≠ "" then .byAvail (parseAvailable a)
      else .allProducts

/-! ### Auxiliary definitions for the verification -/

/-- Option-String query parameter with the empty string collapsed to
absent, used to state that `list_products` treats `""` like a missing
parameter. -/
def normalizeParam : Option String → Option String
  | none => none
  | some s => if s = "" then none else some s

/-- Does `pat` occur as a contiguous subsequence of `s`?  Used to state
that an error message does (or does not) mention a field name. -/
def containsSeq (pat s : List Char) : Bool :=
  (List.range (s.length + 1)).any fun i => List.isPrefixOf pat (s.drop i)

/-- A freshly constructed `Product()`: no id, unset name/description, the
column defaults `available=True` and `category=UNKNOWN`. -/
def blankProduct : Product :=
  ⟨none, Value.null, Value.null, ⟨false, 0, 0⟩, true, CatField.member Category.UNKNOWN⟩

/-- A sample valid product used to instantiate the universally quantified
theorems. -/
def sampleProduct : Product :=
  ⟨some 1, Value.str "Fedora", Value.str "A red hat", ⟨false, 1250, 2⟩, true,
    CatField.member Category.CLOTHS⟩

/-- The record `sampleProduct.serialize` spelled out. -/
def sampleRecord : Record :=
  [("id", Value.int 1), ("name", Value.str "Fedora"),
   ("description", Value.str "A red hat"), ("price", Value.str "12.50"),
   ("available", Value.bool true), ("category", Value.str "CLOTHS")]

/-! ### Digit-character lemmas -/

theorem charVal_ofNat_digit {n : Nat} (h : n < 10) :
    charVal (Char.ofNat (48 + n)) = n := by
  interval_cases n <;> decide

theorem isDigit_ofNat_digit {n : Nat} (h : n < 10) :
    (Char.ofNat (48 + n)).isDigit = true := by
  interval_cases n <;> decide

theorem mem_natCharsAux_isDigit :
    ∀ fuel n c, c ∈ natCharsAux fuel n → c.isDigit = true := by
  intro fuel
  induction fuel with
  | zero => intro n c hc; simp [natCharsAux] at hc
  | succ f ih =>
    intro n c hc
    cases n with
    | zero => simp [natCharsAux] at hc
    | succ m =>
      simp only [natCharsAux, List.mem_cons] at hc
      rcases hc with hc | hc
      · subst hc; exact isDigit_ofNat_digit (Nat.mod_lt _ (by norm_num))
      · exact ih _ _ hc

theorem valLE_natCharsAux : ∀ fuel n, n ≤ fuel → valLE (natCharsAux fuel n) = n := by
  intro fuel
  induction fuel with
  | zero => intro n h; interval_cases n; rfl
  | succ f ih =>
    intro n h
    cases n with
    | zero => rfl
    | succ m =>
      have hdiv : (m + 1) / 10 ≤ f := by
        have := Nat.div_lt_self (Nat.succ_pos m) (by norm_num : 1 < 10)
        omega
      simp only [natCharsAux, valLE, ih _ hdiv,
        charVal_ofNat_digit (Nat.mod_lt _ (by norm_num : (0:Nat) < 10))]
      omega

theorem mem_mantChars_isDigit {n : Nat} {c : Char} (hc : c ∈ mantChars n) :
    c.isDigit = true := by
  unfold mantChars at hc
  split at hc
  · simp at hc; subst hc; decide
  · exact mem_natCharsAux_isDigit n n c (List.mem_reverse.mp hc)

theorem charsVal_mantChars (n : Nat) : charsVal (mantChars n) = n := by
  unfold mantChars
  split
  · subst n; decide
  · unfold charsVal natChars
    rw [List.reverse_reverse]
    exact valLE_natCharsAux n n le_rfl

theorem mantChars_ne_nil (n : Nat) : mantChars n ≠ [] := by
  unfold mantChars
  split
  · simp
  · rename_i h
    cases n with
    | zero => exact absurd rfl h
    | succ m =>
      unfold natChars natCharsAux
      simp

theorem valLE_append (xs ys : List Char) :
    valLE (xs ++ ys) = valLE xs + 10 ^ xs.length * valLE ys := by
  induction xs with
  | nil => simp [valLE]
  | cons c t ih => simp [valLE, ih]; ring

theorem charsVal_append (xs ys : List Char) :
    charsVal (xs ++ ys) = charsVal xs * 10 ^ ys.length + charsVal ys := by
  unfold charsVal
  rw [List.reverse_append, valLE_append, List.length_reverse]
  ring

theorem charsVal_replicate_zero (k : Nat) :
    charsVal (List.replicate k '0') = 0 := by
  unfold charsVal
  rw [List.reverse_replicate]
  induction k with
  | zero => rfl
  | succ m ih => simpa [List.replicate, valLE, charVal] using ih

theorem charsVal_replicate_zero_append (k : Nat) (cs : List Char) :
    charsVal (List.replicate k '0' ++ cs) = charsVal cs := by
  rw [charsVal_append, charsVal_replicate_zero]
  ring

/-! ### Facts about the padded coefficient -/

theorem mem_padded_isDigit {d : Dec} {c : Char} (hc : c ∈ d.padded) :
    c.isDigit = true := by
  unfold Dec.padded at hc
  rcases List.mem_append.mp hc with hc | hc
  · rw [List.eq_of_mem_replicate hc]; decide
  · exact mem_mantChars_isDigit hc

theorem charsVal_padded (d : Dec) : charsVal d.padded = d.mant := by
  unfold Dec.padded
  rw [charsVal_replicate_zero_append, charsVal_mantChars]

theorem padded_ne_nil (d : Dec) : d.padded ≠ [] := by
  unfold Dec.padded
  intro h
  exact mantChars_ne_nil d.mant (List.append_eq_nil.mp h).2

theorem frac_lt_padded_length (d : Dec) : d.frac < d.padded.length := by
  unfold Dec.padded
  rw [List.length_append, List.length_replicate]
  have := List.length_pos.mpr (mantChars_ne_nil d.mant)
  omega

/-! ### takeWhile / dropWhile / strip lemmas -/

theorem takeWhile_eq_self_of_all {p : Char → Bool} :
    ∀ {l : List Char}, (∀ c ∈ l, p c = true) →
      l.takeWhile p = l ∧ l.dropWhile p = [] := by
  intro l
  induction l with
  | nil => intro _; exact ⟨rfl, rfl⟩
  | cons a t ih =>
    intro h
    have ha := h a (List.mem_cons_self a t)
    have ht := ih (fun c hc => h c (List.mem_cons_of_mem a hc))
    simp [List.takeWhile_cons, List.dropWhile_cons, ha, ht.1, ht.2]

theorem takeWhile_append_stop {p : Char → Bool} {x : Char} (hx : p x = false) :
    ∀ (A B : List Char), (∀ c ∈ A, p c = true) →
      (A ++ x :: B).takeWhile p = A ∧ (A ++ x :: B).dropWhile p = x :: B := by
  intro A
  induction A with
  | nil => intro B _; simp [List.takeWhile_cons, List.dropWhile_cons, hx]
  | cons a t ih =>
    intro B h
    have ha := h a (List.mem_cons_self a t)
    have ht := ih B (fun c hc => h c (List.mem_cons_of_mem a hc))
    simp [List.takeWhile_cons, List.dropWhile_cons, ha, ht.1, ht.2]

theorem dropWhile_append_all {p : Char → Bool} :
    ∀ {w l : List Char}, (∀ c ∈ w, p c = true) →
      (w ++ l).dropWhile p = l.dropWhile p := by
  intro w
  induction w with
  | nil => intro l _; rfl
  | cons a t ih =>
    intro l h
    have ha := h a (List.mem_cons_self a t)
    simp [List.dropWhile_cons, ha, ih (fun c hc => h c (List.mem_cons_of_mem a hc))]

theorem dropWhile_eq_self_of_head {p : Char → Bool} :
    ∀ {l : List Char}, (∀ c, l.head? = some c → p c = false) →
      l.dropWhile p = l := by
  intro l
  cases l with
  | nil => intro _; rfl
  | cons a t => intro h; simp [List.dropWhile_cons, h a rfl]

theorem stripChars_no_op {p : Char → Bool} {l : List Char}
    (h1 : ∀ c, l.head? = some c → p c = false)
    (h2 : ∀ c, l.getLast? = some c → p c = false) :
    stripChars p l = l := by
  unfold stripChars
  rw [dropWhile_eq_self_of_head h1,
    dropWhile_eq_self_of_head (fun c hc => h2 c (by rwa [List.head?_reverse] at hc)),
    List.reverse_reverse]

theorem mem_of_head? {l : List Char} {c : Char} (h : l.head? = some c) : c ∈ l := by
  cases l with
  | nil => simp at h
  | cons a t => simp at h; subst h; exact List.mem_cons_self a t

theorem mem_of_getLast? {l : List Char} {c : Char} (h : l.getLast? = some c) :
    c ∈ l := by
  rw [← List.head?_reverse] at h
  exact List.mem_reverse.mp (mem_of_head? h)

theorem head?_append_left {l1 l2 : List Char} (h : l1 ≠ []) :
    (l1 ++ l2).head? = l1.head? := by
  cases l1 with
  | nil => exact absurd rfl h
  | cons a t => rfl

theorem getLast?_append_right {l1 l2 : List Char} (h : l2 ≠ []) :
    (l1 ++ l2).getLast? = l2.getLast? := by
  rw [← List.head?_reverse, ← List.head?_reverse, List.reverse_append,
    head?_append_left (by simpa using h)]

/-! ### Head and last character of a printed decimal -/

theorem decBody_ne_nil (d : Dec) : decBody d ≠ [] := by
  unfold decBody
  split
  · exact padded_ne_nil d
  · simp

theorem take_sub_frac_ne_nil (d : Dec) :
    d.padded.take (d.padded.length - d.frac) ≠ [] := by
  have hlt := frac_lt_padded_length d
  have : (d.padded.take (d.padded.length - d.frac)).length =
      d.padded.length - d.frac := by
    rw [List.length_take]; omega
  intro hnil
  rw [hnil] at this
  simp at this
  omega

theorem drop_sub_frac_ne_nil (d : Dec) (hf : d.frac ≠ 0) :
    d.padded.drop (d.padded.length - d.frac) ≠ [] := by
  have hlt := frac_lt_padded_length d
  have : (d.padded.drop (d.padded.length - d.frac)).length = d.frac := by
    rw [List.length_drop]; omega
  intro hnil
  rw [hnil] at this
  simp at this
  omega

theorem decBody_head_digit {d : Dec} {c : Char}
    (h : (decBody d).head? = some c) : c.isDigit = true := by
  unfold decBody at h
  split at h
  · exact mem_padded_isDigit (mem_of_head? h)
  · rename_i hf
    rw [head?_append_left (take_sub_frac_ne_nil d)] at h
    exact mem_padded_isDigit (List.mem_of_mem_take (mem_of_head? h))

theorem decBody_getLast_digit {d : Dec} {c : Char}
    (h : (decBody d).getLast? = some c) : c.isDigit = true := by
  unfold decBody at h
  split at h
  · exact mem_padded_isDigit (mem_of_getLast? h)
  · rename_i hf
    rw [getLast?_append_right (by simp)] at h
    have hB := drop_sub_frac_ne_nil d hf
    rw [show ('.' :: d.padded.drop (d.padded.length - d.frac)) =
        ['.'] ++ d.padded.drop (d.padded.length - d.frac) from rfl,
      getLast?_append_right hB] at h
    exact mem_padded_isDigit (List.mem_of_mem_drop (mem_of_getLast? h))

theorem isDigit_beq_false {c x : Char} (h : c.isDigit = true)
    (hx : x.isDigit = false) : (c == x) = false := by
  cases hb : c == x
  · rfl
  · exact absurd h (by rw [eq_of_beq hb]; simp [hx])

theorem decToChars_head_not_space {d : Dec} {c : Char}
    (h : (decToChars d).head? = some c) : (c == ' ') = false := by
  unfold decToChars at h
  split at h
  · simp at h; subst h; decide
  · exact isDigit_beq_false (decBody_head_digit h) (by decide)

theorem decToChars_getLast_digit {d : Dec} {c : Char}
    (h : (decToChars d).getLast? = some c) : c.isDigit = true := by
  unfold decToChars at h
  split at h
  · rw [show ('-' :: decBody d) = ['-'] ++ decBody d from rfl,
      getLast?_append_right (decBody_ne_nil d)] at h
    exact decBody_getLast_digit h
  · exact decBody_getLast_digit h

/-! ### Parsing a printed decimal recovers it exactly -/

theorem decParseUnsigned_decBody (d : Dec) (b : Bool) :
    decParseUnsigned (decBody d) b = some ⟨b, d.mant, d.frac⟩ := by
  by_cases hf : d.frac = 0
  · have hall : ∀ c ∈ d.padded, Char.isDigit c = true := fun c hc => mem_padded_isDigit hc
    have htd := takeWhile_eq_self_of_all hall
    unfold decBody
    rw [if_pos hf]
    unfold decParseUnsigned
    rw [htd.1, htd.2]
    simp only [List.isEmpty_nil, if_pos, List.isEmpty_iff]
    rw [if_neg (padded_ne_nil d), charsVal_padded, hf]
  · have hlt := frac_lt_padded_length d
    set A := d.padded.take (d.padded.length - d.frac) with hA
    set B := d.padded.drop (d.padded.length - d.frac) with hB
    have hAB : A ++ B = d.padded := List.take_append_drop _ _
    have hAdig : ∀ c ∈ A, Char.isDigit c = true :=
      fun c hc => mem_padded_isDigit (List.mem_of_mem_take hc)
    have hBdig : ∀ c ∈ B, Char.isDigit c = true :=
      fun c hc => mem_padded_isDigit (List.mem_of_mem_drop hc)
    have htd := takeWhile_append_stop (x := '.') (by decide) A B hAdig
    unfold decBody
    rw [if_neg hf]
    unfold decParseUnsigned
    rw [← hA, ← hB, htd.1, htd.2]
    have hBall : B.all Char.isDigit = true := List.all_eq_true.mpr hBdig
    have hAne : A.isEmpty = false := by
      simp only [List.isEmpty_eq_false]
      exact take_sub_frac_ne_nil d
    simp only [List.isEmpty_cons, List.head?_cons, List.tail_cons, if_neg,
      Bool.false_eq_true, if_false, if_pos]
    rw [hBall, hAne]
    simp only [Bool.false_and, Bool.not_false, Bool.true_and, if_pos]
    have hBlen : B.length = d.frac := by
      rw [hB, List.length_drop]; omega
    rw [hAB, charsVal_padded, hBlen]

theorem decParseChars_decToChars (d : Dec) :
    decParseChars (decToChars d) = some d := by
  have hstrip : stripChars (fun c => c == ' ') (decToChars d) = decToChars d :=
    stripChars_no_op (fun c hc => decToChars_head_not_space hc)
      (fun c hc => isDigit_beq_false (decToChars_getLast_digit hc) (by decide))
  unfold decParseChars
  rw [hstrip]
  obtain ⟨c, rest, hbody⟩ : ∃ c rest, decBody d = c :: rest := by
    cases hb : decBody d with
    | nil => exact absurd hb (decBody_ne_nil d)
    | cons c rest => exact ⟨c, rest, rfl⟩
  have hc_digit : c.isDigit = true := decBody_head_digit (by rw [hbody]; rfl)
  have hc_ne_minus : ¬ c = '-' := by
    intro h; rw [h] at hc_digit; exact absurd hc_digit (by decide)
  have hc_ne_plus : ¬ c = '+' := by
    intro h; rw [h] at hc_digit; exact absurd hc_digit (by decide)
  unfold decToChars
  cases hn : d.neg
  · rw [if_neg (by simp)]
    rw [hbody]
    simp only [if_neg hc_ne_minus, if_neg hc_ne_plus]
    rw [← hbody, decParseUnsigned_decBody]
    cases d; simp_all
  · rw [if_pos rfl]
    simp only [if_pos rfl]
    rw [decParseUnsigned_decBody]
    cases d; simp_all

/-- Parsing round trip `Decimal(str(d)) = d`: the price round-trips exactly through its text
form. -/
theorem decParse_decToString (d : Dec) : decParse (decToString d) = some d :=
  decParseChars_decToChars d

/-! ### Further facts about printed decimals and stripping -/

theorem decToChars_ne_nil (d : Dec) : decToChars d ≠ [] := by
  unfold decToChars
  split
  · simp
  · exact decBody_ne_nil d

theorem decToChars_head_cases {d : Dec} {c : Char}
    (h : (decToChars d).head? = some c) : c = '-' ∨ c.isDigit = true := by
  unfold decToChars at h
  split at h
  · rw [List.head?_cons, Option.some.injEq] at h
    exact Or.inl h.symm
  · exact Or.inr (decBody_head_digit h)

theorem head_space_quote_false {c : Char} (h : c = '-' ∨ c.isDigit = true) :
    (c == ' ' || c == '"') = false := by
  rcases h with rfl | h
  · decide
  · rw [isDigit_beq_false h (by decide), isDigit_beq_false h (by decide)]
    rfl

theorem getLast_space_quote_false {d : Dec} {c : Char}
    (h : (decToChars d).getLast? = some c) : (c == ' ' || c == '"') = false := by
  rw [isDigit_beq_false (decToChars_getLast_digit h) (by decide),
    isDigit_beq_false (decToChars_getLast_digit h) (by decide)]
  rfl

theorem stripChars_padding {w1 w2 : List Char} (d : Dec)
    (h1 : ∀ c ∈ w1, c = ' ' ∨ c = '"') (h2 : ∀ c ∈ w2, c = ' ' ∨ c = '"') :
    stripChars (fun c => c == ' ' || c == '"') (w1 ++ (decToChars d ++ w2))
      = decToChars d := by
  have hq : ∀ x : Char, x = ' ' ∨ x = '"' → ((x == ' ' || x == '"') = true) := by
    rintro x (rfl | rfl) <;> rfl
  have hw1 : ∀ c ∈ w1, ((fun c => c == ' ' || c == '"') c = true) :=
    fun c hc => hq c (h1 c hc)
  have hw2r : ∀ c ∈ w2.reverse, ((fun c => c == ' ' || c == '"') c = true) :=
    fun c hc => hq c (h2 c (List.mem_reverse.mp hc))
  have hp1 : List.dropWhile (fun c => c == ' ' || c == '"') (decToChars d ++ w2)
      = decToChars d ++ w2 :=
    dropWhile_eq_self_of_head (fun c hc => by
      rw [head?_append_left (decToChars_ne_nil d)] at hc
      exact head_space_quote_false (decToChars_head_cases hc))
  have hp2 : List.dropWhile (fun c => c == ' ' || c == '"') (decToChars d).reverse
      = (decToChars d).reverse :=
    dropWhile_eq_self_of_head (fun c hc => by
      rw [List.head?_reverse] at hc
      exact getLast_space_quote_false hc)
  unfold stripChars
  rw [dropWhile_append_all hw1, hp1, List.reverse_append, dropWhile_append_all hw2r,
    hp2, List.reverse_reverse]

/-! ### Helper lemmas about the service operations -/

theorem Category.fromName_name (c : Category) : Category.fromName c.name = some c := by
  cases c <;> rfl

theorem pyDecimal_str_decToString (d : Dec) :
    pyDecimal (Value.str (decToString d)) = Except.ok d := by
  simp only [pyDecimal]
  rw [decParse_decToString]

theorem deserialize_of_serialized (q : Product) (idv nv dv : Value) (d : Dec) (b : Bool)
    (c : Category) :
    Product.deserialize q
      [("id", idv), ("name", nv), ("description", dv),
       ("price", Value.str (decToString d)), ("available", Value.bool b),
       ("category", Value.str c.name)] =
    ({ q with
        name := nv
        description := dv
        price := d
        available := b
        category := CatField.member c }, none) := by
  unfold Product.deserialize
  simp only [List.lookup, String.reduceBEq, pyDecimal_str_decToString,
    pyGetattrCategory, Category.fromName_name]

theorem orEmpty_normalizeParam (x : Option String) :
    orEmpty (normalizeParam x) = orEmpty x := by
  cases x with
  | none => rfl
  | some s =>
    by_cases hs : s = ""
    · simp [normalizeParam, orEmpty, hs]
    · simp [normalizeParam, orEmpty, hs]

/-! ### C1: serialize/deserialize round trip -/

/-- C1: for every Product `p` with valid fields (non-empty string name,
any description, an exact decimal price, a boolean available, a Category
member — the last encoded by `serialize` succeeding), deserializing the
record produced by `serialize p` into any entity succeeds and reproduces
`p`'s name, description, price, available and category exactly (`id` is
excluded).  The price round-trips exactly through its text form. -/
theorem serialize_deserialize_roundtrip (p q : Product) (rec : Record)
    (_hname : ∃ s, p.name = Value.str s ∧ s ≠ "")
    (hser : p.serialize = some rec) :
    (q.deserialize rec).2 = none ∧
    (q.deserialize rec).1.name = p.name ∧
    (q.deserialize rec).1.description = p.description ∧
    (q.deserialize rec).1.price = p.price ∧
    (q.deserialize rec).1.available = p.available ∧
    (q.deserialize rec).1.category = p.category := by
  unfold Product.serialize at hser
  cases hcat : p.category with
  | pyObject a =>
    rw [hcat] at hser
    exact absurd hser (by simp)
  | member c =>
    rw [hcat] at hser
    simp only [Option.some.injEq] at hser
    subst hser
    rw [deserialize_of_serialized]
    simp [hcat]

/-- C1 witness: the round trip evaluated on a concrete valid product. -/
theorem serialize_deserialize_roundtrip_witness :
    (blankProduct.deserialize sampleRecord).2 = none ∧
    (blankProduct.deserialize sampleRecord).1.name = sampleProduct.name ∧
    (blankProduct.deserialize sampleRecord).1.description = sampleProduct.description ∧
    (blankProduct.deserialize sampleRecord).1.price = sampleProduct.price ∧
    (blankProduct.deserialize sampleRecord).1.available = sampleProduct.available ∧
    (blankProduct.deserialize sampleRecord).1.category = sampleProduct.category :=
  serialize_deserialize_roundtrip sampleProduct blankProduct sampleRecord
    ⟨"Fedora", rfl, by decide⟩ rfl

/-! ### C2: missing keys -/

/-- C2 counterexample: a record missing `available` (and `category`) whose
`price` value is `None`.  The claim says deserialization fails naming
`available` (the first missing key in processing order); instead the code
hits `Decimal(None)` first and reports a `TypeError`-derived message that
does not mention `available` at all. -/
theorem deserialize_missing_available_misreported :
    (Product.deserialize blankProduct
      [("name", Value.str "n"), ("description", Value.str "d"),
       ("price", Value.null)]).2 =
      some (PyExc.dataValidation
        "Invalid product: body of request contained bad or no data conversion from NoneType to Decimal is not supported") ∧
    containsSeq "available".data
      "Invalid product: body of request contained bad or no data conversion from NoneType to Decimal is not supported".data
      = false ∧
    containsSeq "available".data "Invalid product: missing available".data = true := by
  refine ⟨by decide, by decide, by decide⟩

/-- C2 (amended): if the first key among name, description, price,
available, category missing from the record is `k`, and the values bound
to the keys processed before `k` are themselves accepted (any value for
name and description, a `Decimal`-convertible price, a boolean
available), then `deserialize` fails with `DataValidationError` whose
message names exactly `k`. -/
theorem deserialize_missing_field_error (q : Product) (rec : Record) :
    (List.lookup "name" rec = none →
      (q.deserialize rec).2 =
        some (PyExc.dataValidation "Invalid product: missing name")) ∧
    ((∃ v, List.lookup "name" rec = some v) →
      List.lookup "description" rec = none →
      (q.deserialize rec).2 =
        some (PyExc.dataValidation "Invalid product: missing description")) ∧
    ((∃ v, List.lookup "name" rec = some v) →
      (∃ v, List.lookup "description" rec = some v) →
      List.lookup "price" rec = none →
      (q.deserialize rec).2 =
        some (PyExc.dataValidation "Invalid product: missing price")) ∧
    ((∃ v, List.lookup "name" rec = some v) →
      (∃ v, List.lookup "description" rec = some v) →
      (∃ pv d, List.lookup "price" rec = some pv ∧ pyDecimal pv = Except.ok d) →
      List.lookup "available" rec = none →
      (q.deserialize rec).2 =
        some (PyExc.dataValidation "Invalid product: missing available")) ∧
    ((∃ v, List.lookup "name" rec = some v) →
      (∃ v, List.lookup "description" rec = some v) →
      (∃ pv d, List.lookup "price" rec = some pv ∧ pyDecimal pv = Except.ok d) →
      (∃ b, List.lookup "available" rec = some (Value.bool b)) →
      List.lookup "category" rec = none →
      (q.deserialize rec).2 =
        some (PyExc.dataValidation "Invalid product: missing category")) := by
  refine ⟨?_, ?_, ?_, ?_, ?_⟩
  · intro h
    simp only [Product.deserialize, h]
  · rintro ⟨nv, hn⟩ h
    simp only [Product.deserialize, hn, h]
  · rintro ⟨nv, hn⟩ ⟨dv, hd⟩ h
    simp only [Product.deserialize, hn, hd, h]
  · rintro ⟨nv, hn⟩ ⟨dv, hd⟩ ⟨pv, d, hp, hpd⟩ h
    simp only [Product.deserialize, hn, hd, hp, hpd, h]
  · rintro ⟨nv, hn⟩ ⟨dv, hd⟩ ⟨pv, d, hp, hpd⟩ ⟨b, hb⟩ h
    simp only [Product.deserialize, hn, hd, hp, hpd, hb, h]

/-- C2 witness: a record with valid earlier values and `available`
missing is reported as missing `available`. -/
theorem deserialize_missing_field_error_witness :
    (Product.deserialize blankProduct
      [("name", Value.str "n"), ("description", Value.str "d"),
       ("price", Value.str "9.99")]).2 =
      some (PyExc.dataValidation "Invalid product: missing available") :=
  (deserialize_missing_field_error blankProduct
      [("name", Value.str "n"), ("description", Value.str "d"),
       ("price", Value.str "9.99")]).2.2.2.1
    ⟨Value.str "n", rfl⟩ ⟨Value.str "d", rfl⟩
    ⟨Value.str "9.99", ⟨false, 999, 2⟩, rfl, rfl⟩ rfl

/-! ### C3: unparsable price -/

/-- C3: on a record with all five keys whose price is the string `"abc"`
(neither a number nor parseable as a decimal), `deserialize` does NOT
fail with the service's validation error: `Decimal("abc")` raises
`decimal.InvalidOperation`, which none of the except clauses
(`AttributeError`, `KeyError`, `TypeError`) catches, so it escapes to the
caller. -/
theorem deserialize_unparsable_price_escapes :
    (Product.deserialize blankProduct
      [("name", Value.str "Fedora"), ("description", Value.str "A red hat"),
       ("price", Value.str "abc"), ("available", Value.bool true),
       ("category", Value.str "FOOD")]).2 = some PyExc.invalidOperation ∧
    PyExc.invalidOperation.isDataValidation = false := by
  refine ⟨by decide, by decide⟩

/-! ### C4: unknown category strings -/

/-- C4 counterexample: the string `"__members__"` is not one of the six
member names, yet `getattr(Category, "__members__")` finds the enum's
member mapping, so `deserialize` succeeds and stores a category outside
the enumeration instead of failing with a validation error. -/
theorem deserialize_class_attr_category_slips :
    (Product.deserialize blankProduct
      [("name", Value.str "n"), ("description", Value.str "d"),
       ("price", Value.str "1"), ("available", Value.bool true),
       ("category", Value.str "__members__")]).2 = none ∧
    (Product.deserialize blankProduct
      [("name", Value.str "n"), ("description", Value.str "d"),
       ("price", Value.str "1"), ("available", Value.bool true),
       ("category", Value.str "__members__")]).1.category.isMember = false := by
  refine ⟨by decide, by decide⟩

/-- C4 (amended): for records with accepted name, description, price and
available whose category value is a string that neither matches a member
name (case-sensitively) nor names another attribute present on the
enumeration class object, `deserialize` fails with `DataValidationError`
naming the invalid value. -/
theorem deserialize_unknown_category_error (q : Product) (rec : Record) (s : String)
    (hn : ∃ v, List.lookup "name" rec = some v)
    (hd : ∃ v, List.lookup "description" rec = some v)
    (hp : ∃ pv d, List.lookup "price" rec = some pv ∧ pyDecimal pv = Except.ok d)
    (ha : ∃ b, List.lookup "available" rec = some (Value.bool b))
    (hc : List.lookup "category" rec = some (Value.str s))
    (hnm : Category.fromName s = none)
    (hca : s ∉ categoryClassAttrs) :
    (q.deserialize rec).2 =
      some (PyExc.dataValidation ("Invalid attribute: " ++ s)) := by
  obtain ⟨nv, hn⟩ := hn
  obtain ⟨dv, hd⟩ := hd
  obtain ⟨pv, d, hp, hpd⟩ := hp
  obtain ⟨b, ha⟩ := ha
  have hg : pyGetattrCategory s = GetattrResult.attrError := by
    unfold pyGetattrCategory
    rw [hnm]
    simp [hca]
  simp only [Product.deserialize, hn, hd, hp, hpd, ha, hc, hg]

/-- C4 witness: an unknown category name is reported by name. -/
theorem deserialize_unknown_category_error_witness :
    (Product.deserialize blankProduct
      [("name", Value.str "n"), ("description", Value.str "d"),
       ("price", Value.str "1"), ("available", Value.bool true),
       ("category", Value.str "LEGWEAR")]).2 =
      some (PyExc.dataValidation ("Invalid attribute: " ++ "LEGWEAR")) :=
  deserialize_unknown_category_error blankProduct
    [("name", Value.str "n"), ("description", Value.str "d"),
     ("price", Value.str "1"), ("available", Value.bool true),
     ("category", Value.str "LEGWEAR")] "LEGWEAR"
    ⟨Value.str "n", rfl⟩ ⟨Value.str "d", rfl⟩
    ⟨Value.str "1", ⟨false, 1, 0⟩, rfl, rfl⟩ ⟨true, rfl⟩ rfl (by decide) (by decide)

/-! ### C5: find_by_price trims quotes and whitespace -/

/-- C5: for every stored row set and decimal `d`, `find_by_price` applied
to the text form of `d` surrounded by any combination of spaces and
double quotes returns the same result as `find_by_price` applied to `d`
itself: exactly the rows whose price equals `d` numerically. -/
theorem find_by_price_trims (rows : List Product) (d : Dec) (w1 w2 : List Char)
    (h1 : ∀ c ∈ w1, c = ' ' ∨ c = '"') (h2 : ∀ c ∈ w2, c = ' ' ∨ c = '"') :
    Product.find_by_price (PriceArg.text ⟨w1 ++ (decToChars d ++ w2)⟩) rows
      = Except.ok (rows.filter fun r => decEqv r.price d) ∧
    Product.find_by_price (PriceArg.dec d) rows
      = Except.ok (rows.filter fun r => decEqv r.price d) := by
  constructor
  · have hs : decParseChars (stripChars (fun c => c == ' ' || c == '"')
        (String.mk (w1 ++ (decToChars d ++ w2))).data) = some d := by
      rw [show (String.mk (w1 ++ (decToChars d ++ w2))).data
          = w1 ++ (decToChars d ++ w2) from rfl,
        stripChars_padding d h1 h2, decParseChars_decToChars]
    simp only [Product.find_by_price, hs]
  · rfl

/-- C5 witness: `" \"12.50\" "` and the decimal 12.50 itself select the
same rows. -/
theorem find_by_price_trims_witness :
    Product.find_by_price (PriceArg.text ⟨[' ', '"'] ++ (decToChars ⟨false, 1250, 2⟩ ++ ['"', ' ', ' '])⟩)
      [sampleProduct, blankProduct]
      = Except.ok ([sampleProduct, blankProduct].filter
          fun r => decEqv r.price ⟨false, 1250, 2⟩) ∧
    Product.find_by_price (PriceArg.dec ⟨false, 1250, 2⟩) [sampleProduct, blankProduct]
      = Except.ok ([sampleProduct, blankProduct].filter
          fun r => decEqv r.price ⟨false, 1250, 2⟩) :=
  find_by_price_trims [sampleProduct, blankProduct] ⟨false, 1250, 2⟩
    [' ', '"'] ['"', ' ', ' '] (by decide) (by decide)

/-! ### C6: listing dispatch precedence -/

/-- C6: the listing endpoint applies exactly one filter, chosen by the
precedence name > category > available; with no parameter supplied all
products are returned; and a supplied `available` is parsed true exactly
for `"true"`, `"yes"`, `"1"` case-insensitively, false otherwise. -/
theorem list_products_precedence :
    (∀ c a s, s ≠ "" → list_products (some s) c a = ListOutcome.byName s) ∧
    (∀ a s cat, s ≠ "" → Category.fromName (pyUpper s) = some cat →
      list_products none (some s) a = ListOutcome.byCategory cat) ∧
    (∀ s, s ≠ "" →
      list_products none none (some s) = ListOutcome.byAvail (parseAvailable s)) ∧
    list_products none none none = ListOutcome.allProducts ∧
    (∀ s, parseAvailable s = true ↔
      (pyLower s = "true" ∨ pyLower s = "yes" ∨ pyLower s = "1")) := by
  refine ⟨?_, ?_, ?_, rfl, ?_⟩
  · intro c a s hs
    simp [list_products, orEmpty, hs]
  · intro a s cat hs hcat
    simp [list_products, orEmpty, hs, hcat]
  · intro s hs
    simp [list_products, orEmpty, hs]
  · intro s
    unfold parseAvailable
    simp [Bool.or_eq_true, beq_iff_eq, or_assoc]

/-- C6 witness: with all three parameters supplied, only the name filter
runs; and the availability tokens parse as documented. -/
theorem list_products_precedence_witness :
    list_products (some "shirt") (some "food") (some "no") = ListOutcome.byName "shirt" ∧
    list_products none (some "food") (some "no") = ListOutcome.byCategory Category.FOOD ∧
    list_products none none (some "No") = ListOutcome.byAvail (parseAvailable "No") ∧
    (parseAvailable "YES" = true ↔
      (pyLower "YES" = "true" ∨ pyLower "YES" = "yes" ∨ pyLower "YES" = "1")) :=
  ⟨list_products_precedence.1 (some "food") (some "no") "shirt" (by decide),
   list_products_precedence.2.1 (some "no") "food" Category.FOOD (by decide) (by decide),
   list_products_precedence.2.2.1 "No" (by decide),
   list_products_precedence.2.2.2.2 "YES"⟩

/-! ### C7: unknown category on the listing endpoint -/

/-- C7: a listing request whose category parameter does not name a member
after upper-casing makes `getattr(Category, category.upper())` raise
`AttributeError`, which nothing in the handler catches: the request fails
with the escaping exception (Flask: HTTP 500, an internal server fault),
not with a 4xx client error. -/
theorem list_products_unknown_category_uncaught (s : String) (hs : s ≠ "")
    (hnm : Category.fromName (pyUpper s) = none) :
    list_products none (some s) none = ListOutcome.catError (pyUpper s) := by
  simp [list_products, orEmpty, hs, hnm]

/-- C7 witness: `?category=legwear` ends in the uncaught-exception
outcome. -/
theorem list_products_unknown_category_uncaught_witness :
    list_products none (some "legwear") none = ListOutcome.catError "LEGWEAR" :=
  list_products_unknown_category_uncaught "legwear" (by decide) (by decide)

/-! ### C8: update requires an assigned id -/

/-- C8: `update` on an entity whose id is unset or zero (Python falsy)
fails with `DataValidationError` before committing anything; with a
nonzero id it persists the entity's current field values over the row
with that id, leaving other rows unchanged. -/
theorem update_requires_truthy_id (p : Product) (rows : List Product) :
    ((p.id = none ∨ p.id = some 0) →
      p.update rows = Except.error
        (PyExc.dataValidation "Update called with empty ID field")) ∧
    (∀ k : Int, k ≠ 0 → p.id = some k →
      p.update rows = Except.ok
        (rows.map fun r => if r.id = some k then p else r)) := by
  constructor
  · intro h
    unfold Product.update
    rw [if_pos h]
  · intro k hk hp
    unfold Product.update
    rw [hp, if_neg (by simp [hk])]

/-- C8 witness: update with id 0 fails; update with id 1 overwrites the
row with id 1. -/
theorem update_requires_truthy_id_witness :
    Product.update ⟨some 0, Value.str "x", Value.str "y", ⟨false, 1, 0⟩, true,
        CatField.member Category.FOOD⟩ [sampleProduct]
      = Except.error (PyExc.dataValidation "Update called with empty ID field") ∧
    Product.update ⟨some 1, Value.str "x", Value.str "y", ⟨false, 1, 0⟩, true,
        CatField.member Category.FOOD⟩ [sampleProduct, blankProduct]
      = Except.ok ([sampleProduct, blankProduct].map
          fun r => if r.id = some 1 then
            ⟨some 1, Value.str "x", Value.str "y", ⟨false, 1, 0⟩, true,
              CatField.member Category.FOOD⟩ else r) :=
  ⟨(update_requires_truthy_id _ [sampleProduct]).1 (Or.inr rfl),
   (update_requires_truthy_id _ [sampleProduct, blankProduct]).2 1 (by decide) rfl⟩

/-! ### C9: deserialize mutates in place before failing -/

/-- C9: deserialization is not atomic: whenever `deserialize` raises, every
field processed before the failing one (in the order name, description,
price, available) has already been overwritten on the entity with the new
value from the record, and is not restored. -/
theorem deserialize_partial_mutation (q : Product) (rec : Record) (err : PyExc)
    (herr : (q.deserialize rec).2 = some err) :
    (∀ nv, List.lookup "name" rec = some nv → (q.deserialize rec).1.name = nv) ∧
    ((∃ v, List.lookup "name" rec = some v) →
      ∀ dv, List.lookup "description" rec = some dv →
        (q.deserialize rec).1.description = dv) ∧
    ((∃ v, List.lookup "name" rec = some v) →
      (∃ v, List.lookup "description" rec = some v) →
      ∀ pv d, List.lookup "price" rec = some pv → pyDecimal pv = Except.ok d →
        (q.deserialize rec).1.price = d) ∧
    ((∃ v, List.lookup "name" rec = some v) →
      (∃ v, List.lookup "description" rec = some v) →
      (∃ pv d, List.lookup "price" rec = some pv ∧ pyDecimal pv = Except.ok d) →
      ∀ b, List.lookup "available" rec = some (Value.bool b) →
        (q.deserialize rec).1.available = b) := by
  cases hn : List.lookup "name" rec with
  | none =>
    refine ⟨?_, ?_, ?_, ?_⟩
    · intro nv h
      exact Option.noConfusion h
    · rintro ⟨v, hv⟩ dv _
      exact Option.noConfusion hv
    · rintro ⟨v, hv⟩ _ pv d _ _
      exact Option.noConfusion hv
    · rintro ⟨v, hv⟩ _ _ b _
      exact Option.noConfusion hv
  | some nv0 =>
    cases hd : List.lookup "description" rec with
    | none =>
      refine ⟨?_, ?_, ?_, ?_⟩
      · intro nv h
        obtain rfl := Option.some.inj h
        simp only [Product.deserialize, hn, hd]
      · rintro _ dv h
        exact Option.noConfusion h
      · rintro _ ⟨v, hv⟩ pv d _ _
        exact Option.noConfusion hv
      · rintro _ ⟨v, hv⟩ _ b _
        exact Option.noConfusion hv
    | some dv0 =>
      cases hp : List.lookup "price" rec with
      | none =>
        refine ⟨?_, ?_, ?_, ?_⟩
        · intro nv h
          obtain rfl := Option.some.inj h
          simp only [Product.deserialize, hn, hd, hp]
        · rintro _ dv h
          obtain rfl := Option.some.inj h
          simp only [Product.deserialize, hn, hd, hp]
        · rintro _ _ pv d hpv _
          exact Option.noConfusion hpv
        · rintro _ _ ⟨pv, d, hpv, _⟩ b _
          exact Option.noConfusion hpv
      | some pv0 =>
        cases hpd : pyDecimal pv0 with
        | error e =>
          refine ⟨?_, ?_, ?_, ?_⟩
          · intro nv h
            obtain rfl := Option.some.inj h
            simp only [Product.deserialize, hn, hd, hp, hpd]
          · rintro _ dv h
            obtain rfl := Option.some.inj h
            simp only [Product.deserialize, hn, hd, hp, hpd]
          · rintro _ _ pv d hpv hok
            obtain rfl := Option.some.inj hpv
            rw [hpd] at hok
            exact Except.noConfusion hok
          · rintro _ _ ⟨pv, d, hpv, hok⟩ b _
            obtain rfl := Option.some.inj hpv
            rw [hpd] at hok
            exact Except.noConfusion hok
        | ok d0 =>
          cases ha : List.lookup "available" rec with
          | none =>
            refine ⟨?_, ?_, ?_, ?_⟩
            · intro nv h
              obtain rfl := Option.some.inj h
              simp only [Product.deserialize, hn, hd, hp, hpd, ha]
            · rintro _ dv h
              obtain rfl := Option.some.inj h
              simp only [Product.deserialize, hn, hd, hp, hpd, ha]
            · rintro _ _ pv d hpv hok
              obtain rfl := Option.some.inj hpv
              rw [hpd] at hok
              obtain rfl := Except.ok.inj hok
              simp only [Product.deserialize, hn, hd, hp, hpd, ha]
            · rintro _ _ _ b h
              exact Option.noConfusion h
          | some av0 =>
            cases av0 with
            | bool b0 =>
              cases hcat : List.lookup "category" rec with
              | none =>
                refine ⟨?_, ?_, ?_, ?_⟩
                · intro nv h
                  obtain rfl := Option.some.inj h
                  simp only [Product.deserialize, hn, hd, hp, hpd, ha, hcat]
                · rintro _ dv h
                  obtain rfl := Option.some.inj h
                  simp only [Product.deserialize, hn, hd, hp, hpd, ha, hcat]
                · rintro _ _ pv d hpv hok
                  obtain rfl := Option.some.inj hpv
                  rw [hpd] at hok
                  obtain rfl := Except.ok.inj hok
                  simp only [Product.deserialize, hn, hd, hp, hpd, ha, hcat]
                · rintro _ _ _ b h
                  obtain rfl := Value.bool.inj (Option.some.inj h)
                  simp only [Product.deserialize, hn, hd, hp, hpd, ha, hcat]
              | some cv0 =>
                have hfields : (q.deserialize rec).1.name = nv0 ∧
                    (q.deserialize rec).1.description = dv0 ∧
                    (q.deserialize rec).1.price = d0 ∧
                    (q.deserialize rec).1.available = b0 := by
                  cases cv0 with
                  | str s0 =>
                    cases hg : pyGetattrCategory s0 with
                    | member c0 =>
                      exfalso
                      simp only [Product.deserialize, hn, hd, hp, hpd, ha, hcat, hg] at herr
                      exact Option.noConfusion herr
                    | classAttr a0 =>
                      exfalso
                      simp only [Product.deserialize, hn, hd, hp, hpd, ha, hcat, hg] at herr
                      exact Option.noConfusion herr
                    | attrError =>
                      refine ⟨?_, ?_, ?_, ?_⟩ <;>
                        simp only [Product.deserialize, hn, hd, hp, hpd, ha, hcat, hg]
                  | int n =>
                    refine ⟨?_, ?_, ?_, ?_⟩ <;>
                      simp only [Product.deserialize, hn, hd, hp, hpd, ha, hcat]
                  | bool bb =>
                    refine ⟨?_, ?_, ?_, ?_⟩ <;>
                      simp only [Product.deserialize, hn, hd, hp, hpd, ha, hcat]
                  | null =>
                    refine ⟨?_, ?_, ?_, ?_⟩ <;>
                      simp only [Product.deserialize, hn, hd, hp, hpd, ha, hcat]
                refine ⟨?_, ?_, ?_, ?_⟩
                · intro nv h
                  obtain rfl := Option.some.inj h
                  exact hfields.1
                · rintro _ dv h
                  obtain rfl := Option.some.inj h
                  exact hfields.2.1
                · rintro _ _ pv d hpv hok
                  obtain rfl := Option.some.inj hpv
                  rw [hpd] at hok
                  obtain rfl := Except.ok.inj hok
                  exact hfields.2.2.1
                · rintro _ _ _ b h
                  obtain rfl := Value.bool.inj (Option.some.inj h)
                  exact hfields.2.2.2
            | str s =>
              refine ⟨?_, ?_, ?_, ?_⟩
              · intro nv h
                obtain rfl := Option.some.inj h
                simp only [Product.deserialize, hn, hd, hp, hpd, ha]
              · rintro _ dv h
                obtain rfl := Option.some.inj h
                simp only [Product.deserialize, hn, hd, hp, hpd, ha]
              · rintro _ _ pv d hpv hok
                obtain rfl := Option.some.inj hpv
                rw [hpd] at hok
                obtain rfl := Except.ok.inj hok
                simp only [Product.deserialize, hn, hd, hp, hpd, ha]
              · rintro _ _ _ b h
                exact Value.noConfusion (Option.some.inj h)
            | int n =>
              refine ⟨?_, ?_, ?_, ?_⟩
              · intro nv h
                obtain rfl := Option.some.inj h
                simp only [Product.deserialize, hn, hd, hp, hpd, ha]
              · rintro _ dv h
                obtain rfl := Option.some.inj h
                simp only [Product.deserialize, hn, hd, hp, hpd, ha]
              · rintro _ _ pv d hpv hok
                obtain rfl := Option.some.inj hpv
                rw [hpd] at hok
                obtain rfl := Except.ok.inj hok
                simp only [Product.deserialize, hn, hd, hp, hpd, ha]
              · rintro _ _ _ b h
                exact Value.noConfusion (Option.some.inj h)
            | null =>
              refine ⟨?_, ?_, ?_, ?_⟩
              · intro nv h
                obtain rfl := Option.some.inj h
                simp only [Product.deserialize, hn, hd, hp, hpd, ha]
              · rintro _ dv h
                obtain rfl := Option.some.inj h
                simp only [Product.deserialize, hn, hd, hp, hpd, ha]
              · rintro _ _ pv d hpv hok
                obtain rfl := Option.some.inj hpv
                rw [hpd] at hok
                obtain rfl := Except.ok.inj hok
                simp only [Product.deserialize, hn, hd, hp, hpd, ha]
              · rintro _ _ _ b h
                exact Value.noConfusion (Option.some.inj h)

/-- C9 witness: a record failing at the category stage has already
overwritten name, description, price and available. -/
theorem deserialize_partial_mutation_witness :
    (Product.deserialize sampleProduct
      [("name", Value.str "new name"), ("description", Value.str "new desc"),
       ("price", Value.str "7.25"), ("available", Value.bool false),
       ("category", Value.str "LEGWEAR")]).1.name = Value.str "new name" ∧
    (Product.deserialize sampleProduct
      [("name", Value.str "new name"), ("description", Value.str "new desc"),
       ("price", Value.str "7.25"), ("available", Value.bool false),
       ("category", Value.str "LEGWEAR")]).1.description = Value.str "new desc" ∧
    (Product.deserialize sampleProduct
      [("name", Value.str "new name"), ("description", Value.str "new desc"),
       ("price", Value.str "7.25"), ("available", Value.bool false),
       ("category", Value.str "LEGWEAR")]).1.price = ⟨false, 725, 2⟩ ∧
    (Product.deserialize sampleProduct
      [("name", Value.str "new name"), ("description", Value.str "new desc"),
       ("price", Value.str "7.25"), ("available", Value.bool false),
       ("category", Value.str "LEGWEAR")]).1.available = false := by
  have h := deserialize_partial_mutation sampleProduct
    [("name", Value.str "new name"), ("description", Value.str "new desc"),
     ("price", Value.str "7.25"), ("available", Value.bool false),
     ("category", Value.str "LEGWEAR")]
    (PyExc.dataValidation ("Invalid attribute: " ++ "LEGWEAR")) (by decide)
  exact ⟨h.1 _ rfl,
    h.2.1 ⟨Value.str "new name", rfl⟩ _ rfl,
    h.2.2.1 ⟨Value.str "new name", rfl⟩ ⟨Value.str "new desc", rfl⟩
      (Value.str "7.25") ⟨false, 725, 2⟩ rfl rfl,
    h.2.2.2 ⟨Value.str "new name", rfl⟩ ⟨Value.str "new desc", rfl⟩
      ⟨Value.str "7.25", ⟨false, 725, 2⟩, rfl, rfl⟩ false rfl⟩

/-! ### C10: empty query parameters are treated as absent -/

/-- C10: the listing endpoint treats a query parameter bound to `""` as
absent: dispatch is invariant under collapsing empty-string parameters to
missing ones; in particular `name=""` with a category supplied applies
the category filter, and all-empty parameters return all products. -/
theorem list_products_empty_as_absent :
    (∀ n c a, list_products n c a =
      list_products (normalizeParam n) (normalizeParam c) (normalizeParam a)) ∧
    list_products (some "") (some "food") none = ListOutcome.byCategory Category.FOOD ∧
    list_products (some "") (some "") (some "") = ListOutcome.allProducts := by
  refine ⟨?_, by decide, by decide⟩
  intro n c a
  simp only [list_products, orEmpty_normalizeParam]

end ProductStore
